import Mathlib

/-!
# HedgeDoc — verification of spec claims

Shallow embedding of the HedgeDoc excerpts relevant to the frozen claims:

* the permissions-authorization service (`mayRead` / `mayWrite` /
  `updateNotePermissions`); the service implementation file
  `permissions.service.ts` is not part of the provided sources (only its
  test suite `permissions.service.spec.ts` is), so those definitions are
  modelled from the specification text and checked against the behaviour
  pinned down by the test suite;
* the CodeMirror authorship-range decoration state field
  (`authorship-layers-extensions.ts`);
* the Redux note-history slice (`redux/history/slice.ts`).
-/

namespace Permissions

/-- `GuestAccess` enum from `src/config/guest_access.enum` (values
DENY < READ < WRITE < CREATE). -/
inductive GuestAccess where
  | deny
  | read
  | write
  | create
deriving DecidableEq, Repr

/-- `DefaultAccessLevel` enum from `src/config/default-access-level.enum`
(values NONE, READ, WRITE). -/
inductive DefaultAccessLevel where
  | none
  | read
  | write
deriving DecidableEq, Repr

/-- Names of the built-in special groups (`src/groups/groups.special`). -/
def SpecialGroupEveryone : String := "_EVERYONE"

/-- Name of the built-in group of all logged-in users. -/
def SpecialGroupLoggedIn : String := "_LOGGED_IN"

/-- A user: only the id is relevant to permission evaluation. -/
structure User where
  id : Nat
deriving DecidableEq, Repr

/-- A group: ordinary groups carry an explicit member list, special groups
(`special = true`) have implicit membership. -/
structure Group where
  name : String
  special : Bool
  members : List User
deriving DecidableEq, Repr

/-- A per-user grant on a note (`NoteUserPermission` entity). -/
structure NoteUserPermission where
  user : User
  canEdit : Bool
deriving DecidableEq, Repr

/-- A per-group grant on a note (`NoteGroupPermission` entity). -/
structure NoteGroupPermission where
  group : Group
  canEdit : Bool
deriving DecidableEq, Repr

/-- A note with its owner and its explicit grants. -/
structure Note where
  owner : Option User
  userPermissions : List NoteUserPermission
  groupPermissions : List NoteGroupPermission
deriving DecidableEq, Repr

/-- The slice of `NoteConfig` consulted by permission evaluation:
the guest-access policy and the default access levels of the two
special groups. -/
structure NoteConfig where
  guestAccess : GuestAccess
  defaultEveryone : DefaultAccessLevel
  defaultLoggedIn : DefaultAccessLevel
deriving DecidableEq, Repr

/-- Modelled from the spec: `PermissionsService.isOwner` of the absent
`permissions.service.ts` — the owner check, true exactly when the caller
is authenticated and is the note's owner. -/
def isOwner (user : Option User) (note : Note) : Bool :=
  match user, note.owner with
  | some u, some o => o.id == u.id
  | _, _ => false

/-- Modelled from the spec: the per-user grant layer of the absent
`permissions.service.ts` — an authenticated caller matches a grant naming
them; a grant with `canEdit` true allows read and write, a grant with
`canEdit` false only read (`wantEdit = false`). A guest matches no
per-user grant. -/
def hasPermissionUser (user : Option User) (note : Note) (wantEdit : Bool) : Bool :=
  match user with
  | none => false
  | some u =>
      note.userPermissions.any fun p => p.user.id == u.id && (p.canEdit || !wantEdit)

/-- Modelled from the spec: the guest-access policy gate of the absent
`permissions.service.ts`. DENY admits guests to nothing, READ only to
reading, WRITE and CREATE also to writing. -/
def guestsAllowed (cfg : NoteConfig) (wantEdit : Bool) : Bool :=
  match cfg.guestAccess with
  | GuestAccess.deny => false
  | GuestAccess.read => !wantEdit
  | GuestAccess.write => true
  | GuestAccess.create => true

/-- Modelled from the spec: the per-group grant layer of the absent
`permissions.service.ts` — a grant is effective when it is a write grant
or only reading is requested; a special-group grant falls back to
implicit membership (LOGGED_IN covers every authenticated user, EVERYONE
additionally needs the guest-access gate and, for writing, the
default-access level WRITE for the EVERYONE group); an ordinary group
covers its listed members. -/
def hasPermissionGroup (cfg : NoteConfig) (user : Option User) (note : Note)
    (wantEdit : Bool) : Bool :=
  note.groupPermissions.any fun gp =>
    (gp.canEdit || !wantEdit) &&
      (if gp.group.special then
        (gp.group.name == SpecialGroupLoggedIn && user.isSome) ||
          (gp.group.name == SpecialGroupEveryone && guestsAllowed cfg wantEdit &&
            (!wantEdit || cfg.defaultEveryone == DefaultAccessLevel.write))
      else
        match user with
        | none => false
        | some u => gp.group.members.any fun m => m.id == u.id)

/-- Modelled from the spec: `PermissionsService.mayRead` — the layered
short-circuit: owner, then per-user grant, then per-group grant. -/
def mayRead (cfg : NoteConfig) (user : Option User) (note : Note) : Bool :=
  isOwner user note || hasPermissionUser user note false ||
    hasPermissionGroup cfg user note false

/-- Modelled from the spec: `PermissionsService.mayWrite` — the layered
short-circuit: owner, then per-user write grant, then per-group write
grant. -/
def mayWrite (cfg : NoteConfig) (user : Option User) (note : Note) : Bool :=
  isOwner user note || hasPermissionUser user note true ||
    hasPermissionGroup cfg user note true

/-- A requested per-user grant in a permission-update call
(`NoteUserPermissionUpdateDto`). -/
structure NoteUserPermissionUpdateDto where
  username : String
  canEdit : Bool
deriving DecidableEq, Repr

/-- A requested per-group grant in a permission-update call
(`NoteGroupPermissionUpdateDto`). -/
structure NoteGroupPermissionUpdateDto where
  groupName : String
  canEdit : Bool
deriving DecidableEq, Repr

/-- The payload of `updateNotePermissions` (`NotePermissionsUpdateDto`). -/
structure NotePermissionsUpdateDto where
  sharedToUsers : List NoteUserPermissionUpdateDto
  sharedToGroups : List NoteGroupPermissionUpdateDto
deriving DecidableEq, Repr

/-- The ways `updateNotePermissions` can fail (`src/errors/errors`):
the distinct inconsistency error for duplicate grants, and the
not-found error for an unknown user or group name. -/
inductive PermissionsError where
  | PermissionsUpdateInconsistentError
  | NotInDBError
deriving DecidableEq, Repr

/-- Whether a list of names contains the same name twice
(`checkArrayForDuplicates` utility). -/
def checkArrayForDuplicates : List String → Bool
  | [] => false
  | x :: xs => xs.contains x || checkArrayForDuplicates xs

/-- Resolve each requested user grant to a stored grant, failing with
`NotInDBError` on an unknown username. -/
def resolveUserGrants (findUser : String → Option User) :
    List NoteUserPermissionUpdateDto →
      Except PermissionsError (List NoteUserPermission)
  | [] => Except.ok []
  | d :: ds =>
      match findUser d.username with
      | none => Except.error PermissionsError.NotInDBError
      | some u => do
          let rest ← resolveUserGrants findUser ds
          Except.ok ({ user := u, canEdit := d.canEdit } :: rest)

/-- Resolve each requested group grant to a stored grant, failing with
`NotInDBError` on an unknown group name. -/
def resolveGroupGrants (findGroup : String → Option Group) :
    List NoteGroupPermissionUpdateDto →
      Except PermissionsError (List NoteGroupPermission)
  | [] => Except.ok []
  | d :: ds =>
      match findGroup d.groupName with
      | none => Except.error PermissionsError.NotInDBError
      | some g => do
          let rest ← resolveGroupGrants findGroup ds
          Except.ok ({ group := g, canEdit := d.canEdit } :: rest)

/-- Modelled from the spec: `PermissionsService.updateNotePermissions` of
the absent `permissions.service.ts` — the call is rejected with the
distinct `PermissionsUpdateInconsistentError` when the supplied user
grants repeat a username or the supplied group grants repeat a group
name; otherwise the note's grants are replaced by the supplied ones,
with the user / group names resolved through the repositories
(`findUser` / `findGroup`). -/
def updateNotePermissions (findUser : String → Option User)
    (findGroup : String → Option Group) (note : Note)
    (newPermissions : NotePermissionsUpdateDto) :
    Except PermissionsError Note :=
  if checkArrayForDuplicates (newPermissions.sharedToUsers.map
        (fun d => d.username)) ||
      checkArrayForDuplicates (newPermissions.sharedToGroups.map
        (fun d => d.groupName)) then
    Except.error PermissionsError.PermissionsUpdateInconsistentError
  else do
    let ups ← resolveUserGrants findUser newPermissions.sharedToUsers
    let gps ← resolveGroupGrants findGroup newPermissions.sharedToGroups
    Except.ok { note with userPermissions := ups, groupPermissions := gps }

/-- Replacing a note's group-permission list, used to state order
independence. -/
def withGroupPermissions (note : Note) (gps : List NoteGroupPermission) : Note :=
  { note with groupPermissions := gps }

end Permissions

namespace Authorship

/-!
Embedding of `authorship-layers-extensions.ts`. A mark decoration is
identified by its range and the authoring user id (stored in the
`data-user-id` attribute; the CSS class is derived from the user id and
carries no extra information). A CodeMirror `DecorationSet` is modelled
as the list of its decorations; `RangeSet.update` with a `filter`
limited to `filterFrom .. filterTo` consults the filter exactly for the
ranges with `to ≥ filterFrom` and `from ≤ filterTo` and keeps every
other range untouched, which is what `filterStep` reproduces.
-/

/-- The payload of `authorshipsUpdateEffect` (`AuthorshipUpdate`). -/
structure AuthorshipUpdate where
  fromPos : Nat
  toPos : Nat
  userId : String
  localUpdate : Bool
deriving DecidableEq, Repr

/-- A mark decoration produced by `createMark`: the range and the
authoring user (attribute `data-user-id`). -/
structure Deco where
  fromPos : Nat
  toPos : Nat
  userId : String
deriving DecidableEq, Repr

/-- `createMark from to userId`. -/
def createMark (f t : Nat) (userId : String) : Deco :=
  { fromPos := f, toPos := t, userId := userId }

/-- The state threaded through the `filter` callback of the first
`authorshipDecorations.update` call: the `effectHandled` flag, the
decorations kept so far, and the `addedDecorations` accumulator. -/
structure FilterState where
  handled : Bool
  kept : List Deco
  added : List Deco
deriving DecidableEq, Repr

/-- One decoration passing through `RangeSet.update`'s filter stage.
A decoration outside the `filterFrom = effect.from` / `filterTo =
effect.to` window is kept without consulting the filter; inside the
window the filter body of `authorshipsStateField.update` runs: once
`effectHandled` it keeps everything, a same-user decoration adjacent to
the effect is merged into one spanning mark, a same-user decoration
otherwise is recreated as-is, and a decoration of another user is split
around the effect range. -/
def filterStep (eff : AuthorshipUpdate) (st : FilterState) (d : Deco) :
    FilterState :=
  if d.toPos < eff.fromPos || eff.toPos < d.fromPos then
    { st with kept := st.kept ++ [d] }
  else if st.handled then
    { st with kept := st.kept ++ [d] }
  else if d.userId == eff.userId then
    if d.fromPos == eff.toPos || d.toPos == eff.fromPos then
      { handled := true, kept := st.kept,
        added := st.added ++
          [createMark (min d.fromPos eff.fromPos) (max d.toPos eff.toPos)
            d.userId] }
    else
      { handled := true, kept := st.kept,
        added := st.added ++ [createMark d.fromPos d.toPos d.userId] }
  else
    { handled := true, kept := st.kept,
      added := st.added ++
        ((if d.fromPos < eff.fromPos then
            [createMark d.fromPos eff.fromPos d.userId]
          else []) ++
          [createMark eff.fromPos eff.toPos eff.userId] ++
          (if eff.toPos < d.toPos then
            [createMark eff.toPos d.toPos d.userId]
          else [])) }

/-- Run the filter stage over the whole decoration set. -/
def runFilter (eff : AuthorshipUpdate) (decos : List Deco) : FilterState :=
  decos.foldl (filterStep eff) { handled := false, kept := [], added := [] }

/-- Processing of a single `authorshipsUpdateEffect` by
`authorshipsStateField.update`: the filter pass, the fallback mark when
no decoration was touched, and the second `update` call adding the
accumulated decorations to the set. -/
def applyEffect (decos : List Deco) (eff : AuthorshipUpdate) : List Deco :=
  let st := runFilter eff decos
  let adds :=
    if st.added.isEmpty then [createMark eff.fromPos eff.toPos eff.userId]
    else st.added
  st.kept ++ adds

/-- The whole `update` function of `authorshipsStateField`: the stored
decorations are first mapped through the transaction's document changes
(abstracted as the position map `mapPos`), then each authorship update
effect of the transaction is processed in order. -/
def updateDecorations (decos : List Deco) (mapPos : Nat → Nat)
    (effects : List AuthorshipUpdate) : List Deco :=
  let mapped := decos.map fun d =>
    { d with fromPos := mapPos d.fromPos, toPos := mapPos d.toPos }
  effects.foldl applyEffect mapped

/-- Two authorship updates that agree on everything but the
`localUpdate` flag. -/
def SameButLocal (a b : AuthorshipUpdate) : Prop :=
  a.fromPos = b.fromPos ∧ a.toPos = b.toPos ∧ a.userId = b.userId

end Authorship

namespace History

/-- A history entry as far as the reducers inspect it: the note
identifier; the remaining fields (title, tags, timestamps, pin status)
do not influence the reducers and are abstracted into `rest`. -/
structure HistoryEntry where
  identifier : String
  rest : String
deriving DecidableEq, Repr

/-- Payload of the `updateEntry` action (`UpdateEntryPayload`). -/
structure UpdateEntryPayload where
  noteId : String
  newEntry : HistoryEntry
deriving DecidableEq, Repr

/-- Payload of the `removeEntry` action (`RemoveEntryPayload`). -/
structure RemoveEntryPayload where
  noteId : String
deriving DecidableEq, Repr

/-- The `updateEntry` reducer of `redux/history/slice.ts`:
`state.filter((entry) => entry.identifier !== action.payload.noteId)
.concat(action.payload.newEntry)`. -/
def updateEntry (state : List HistoryEntry) (payload : UpdateEntryPayload) :
    List HistoryEntry :=
  (state.filter fun entry => entry.identifier != payload.noteId) ++
    [payload.newEntry]

/-- The `removeEntry` reducer of `redux/history/slice.ts`:
`state.filter((entry) => entry.identifier !== action.payload.noteId)`. -/
def removeEntry (state : List HistoryEntry) (payload : RemoveEntryPayload) :
    List HistoryEntry :=
  state.filter fun entry => entry.identifier != payload.noteId

end History

namespace PermissionsTests

/-!
The fixtures of `permissions.service.spec.ts`, evaluated on the model:
every `example` below restates one of the test suite's expectations.
The guest tests run with both default access levels set to WRITE.
-/

open Permissions

/-- Test user with id 1. -/
def user1 : User := { id := 1 }

/-- Test user with id 2. -/
def user2 : User := { id := 2 }

/-- The special EVERYONE group. -/
def everybody : Group :=
  { name := SpecialGroupEveryone, special := true, members := [] }

/-- The special LOGGED_IN group. -/
def loggedIn : Group :=
  { name := SpecialGroupLoggedIn, special := true, members := [] }

/-- Note configuration used in the guest tests: both special-group
defaults at WRITE, the guest-access policy varying. -/
def cfg (g : GuestAccess) : NoteConfig :=
  { guestAccess := g, defaultEveryone := DefaultAccessLevel.write,
    defaultLoggedIn := DefaultAccessLevel.write }

/-- `noteNobodyRead`: owned by user1, no grants. -/
def noteNobodyRead : Note :=
  { owner := some user1, userPermissions := [], groupPermissions := [] }

/-- `noteUser1Read`: owned by user2, read grant for user1. -/
def noteUser1Read : Note :=
  { owner := some user2,
    userPermissions := [{ user := user1, canEdit := false }],
    groupPermissions := [] }

/-- `noteUser2Read`: owned by user2, read grant for user2. -/
def noteUser2Read : Note :=
  { owner := some user2,
    userPermissions := [{ user := user2, canEdit := false }],
    groupPermissions := [] }

/-- `noteUser2Write`: owned by user2, write grant for user1. -/
def noteUser2Write : Note :=
  { owner := some user2,
    userPermissions := [{ user := user1, canEdit := true }],
    groupPermissions := [] }

/-- `noteEverybodyNone`: owned by user1, no grants. -/
def noteEverybodyNone : Note :=
  { owner := some user1, userPermissions := [], groupPermissions := [] }

/-- `noteEverybodyRead`: owned by user1, EVERYONE read grant. -/
def noteEverybodyRead : Note :=
  { owner := some user1, userPermissions := [],
    groupPermissions := [{ group := everybody, canEdit := false }] }

/-- `noteEverybodyWrite`: owned by user1, EVERYONE write grant. -/
def noteEverybodyWrite : Note :=
  { owner := some user1, userPermissions := [],
    groupPermissions := [{ group := everybody, canEdit := true }] }

example : ∀ g, mayRead (cfg g) (some user1) noteNobodyRead = true := by
  intro g; cases g <;> decide
example : ∀ g, mayRead (cfg g) (some user1) noteUser2Read = false := by
  intro g; cases g <;> decide
example : ∀ g, mayRead (cfg g) (some user1) noteUser1Read = true := by
  intro g; cases g <;> decide
example : ∀ g, mayRead (cfg g) (some user1) noteUser2Write = true := by
  intro g; cases g <;> decide
example : ∀ g, mayWrite (cfg g) (some user1) noteNobodyRead = true := by
  intro g; cases g <;> decide
example : ∀ g, mayWrite (cfg g) (some user1) noteUser1Read = false := by
  intro g; cases g <;> decide
example : ∀ g, mayWrite (cfg g) (some user1) noteUser2Write = true := by
  intro g; cases g <;> decide

example : mayRead (cfg GuestAccess.deny) none noteEverybodyNone = false := by decide
example : mayRead (cfg GuestAccess.deny) none noteEverybodyRead = false := by decide
example : mayRead (cfg GuestAccess.deny) none noteEverybodyWrite = false := by decide
example : mayRead (cfg GuestAccess.read) none noteEverybodyNone = false := by decide
example : mayRead (cfg GuestAccess.read) none noteEverybodyRead = true := by decide
example : mayRead (cfg GuestAccess.read) none noteEverybodyWrite = true := by decide
example : mayRead (cfg GuestAccess.write) none noteEverybodyRead = true := by decide
example : mayRead (cfg GuestAccess.create) none noteEverybodyWrite = true := by decide

example : mayWrite (cfg GuestAccess.deny) none noteEverybodyWrite = false := by decide
example : mayWrite (cfg GuestAccess.read) none noteEverybodyNone = false := by decide
example : mayWrite (cfg GuestAccess.read) none noteEverybodyRead = false := by decide
example : mayWrite (cfg GuestAccess.read) none noteEverybodyWrite = false := by decide
example : mayWrite (cfg GuestAccess.write) none noteEverybodyRead = false := by decide
example : mayWrite (cfg GuestAccess.write) none noteEverybodyWrite = true := by decide
example : mayWrite (cfg GuestAccess.create) none noteEverybodyWrite = true := by decide

/-- An ordinary group containing user1, as in the group-combination
tests. -/
def user1group : Group :=
  { name := "user1group", special := false, members := [user1] }

/-- A note owned by user2 carrying a given group-permission list. -/
def groupNote (gps : List NoteGroupPermission) : Note :=
  { owner := some user2, userPermissions := [], groupPermissions := gps }

example :
    mayRead (cfg GuestAccess.create) (some user1)
      (groupNote [{ group := user1group, canEdit := false }]) = true := by decide
example :
    mayWrite (cfg GuestAccess.create) (some user1)
      (groupNote [{ group := user1group, canEdit := false }]) = false := by decide
example :
    mayWrite (cfg GuestAccess.create) (some user1)
      (groupNote [{ group := user1group, canEdit := true }]) = true := by decide
example :
    mayRead (cfg GuestAccess.create) (some user1)
      (groupNote [{ group := loggedIn, canEdit := false }]) = true := by decide
example :
    mayWrite (cfg GuestAccess.create) (some user1)
      (groupNote [{ group := loggedIn, canEdit := true }]) = true := by decide
example :
    mayWrite (cfg GuestAccess.create) (some user1)
      (groupNote [{ group := everybody, canEdit := true }]) = true := by decide
example :
    mayRead (cfg GuestAccess.create) (some user1)
      (groupNote [{ group := everybody, canEdit := false }]) = true := by decide

end PermissionsTests

namespace History

/-- C8: the `updateEntry` reducer removes every entry whose identifier
equals the payload's `noteId`, keeps all other entries in their original
relative order, and appends the payload's `newEntry` at the end; the
`removeEntry` reducer performs the same removal without appending. -/
theorem updateEntry_removes_then_appends (state : List HistoryEntry)
    (p : UpdateEntryPayload) :
    (removeEntry state { noteId := p.noteId }).Sublist state ∧
    (∀ e, e ∈ removeEntry state { noteId := p.noteId } ↔
      e ∈ state ∧ e.identifier ≠ p.noteId) ∧
    updateEntry state p =
      removeEntry state { noteId := p.noteId } ++ [p.newEntry] := by
  refine ⟨List.filter_sublist state, ?_, rfl⟩
  intro e
  simp [removeEntry, List.mem_filter]

end History

namespace Permissions

/-- `List.any` returns the same answer on permuted lists. -/
theorem any_of_perm {α : Type} (p : α → Bool) :
    ∀ {l₁ l₂ : List α}, l₁.Perm l₂ → l₁.any p = l₂.any p := by
  intro l₁ l₂ h
  induction h with
  | nil => rfl
  | cons x _ ih => simp [List.any_cons, ih]
  | swap x y l => simp [List.any_cons, Bool.or_left_comm]
  | trans _ _ ih₁ ih₂ => exact ih₁.trans ih₂

/-- C2: with the guest-access policy DENY, a guest is denied both read
and write on every note, whatever grants the note carries. -/
theorem guest_denied_under_deny (cfg : NoteConfig) (note : Note)
    (h : cfg.guestAccess = GuestAccess.deny) :
    mayRead cfg none note = false ∧ mayWrite cfg none note = false := by
  constructor <;>
    simp [mayRead, mayWrite, isOwner, hasPermissionUser, hasPermissionGroup,
      guestsAllowed, h, List.any_eq_false]

/-- Witness for C2 at a concrete input: a note granting the special
EVERYONE group write access is still unreadable and unwritable for a
guest under the DENY policy. -/
theorem guest_denied_under_deny_witness :
    mayRead (PermissionsTests.cfg GuestAccess.deny) none
        PermissionsTests.noteEverybodyWrite = false ∧
      mayWrite (PermissionsTests.cfg GuestAccess.deny) none
        PermissionsTests.noteEverybodyWrite = false :=
  guest_denied_under_deny (PermissionsTests.cfg GuestAccess.deny)
    PermissionsTests.noteEverybodyWrite rfl

/-- C3: with the EVERYONE default access level at WRITE, a guest can
write a note exactly when the guest-access policy is WRITE or CREATE
and the note carries an EVERYONE group permission with `canEdit` true;
under the READ policy a guest can never write. -/
theorem guest_mayWrite_iff (cfg : NoteConfig) (note : Note)
    (hdef : cfg.defaultEveryone = DefaultAccessLevel.write) :
    (mayWrite cfg none note = true ↔
      (cfg.guestAccess = GuestAccess.write ∨
          cfg.guestAccess = GuestAccess.create) ∧
        ∃ gp ∈ note.groupPermissions,
          gp.group.special = true ∧ gp.group.name = SpecialGroupEveryone ∧
            gp.canEdit = true) ∧
    (cfg.guestAccess = GuestAccess.read → mayWrite cfg none note = false) := by
  constructor
  · simp only [mayWrite, isOwner, hasPermissionUser, hasPermissionGroup,
      Bool.false_or, List.any_eq_true]
    constructor
    · rintro ⟨gp, hmem, hcond⟩
      cases hga : cfg.guestAccess <;>
        simp [guestsAllowed, hga, hdef] at hcond <;>
        exact ⟨by simp, gp, hmem, by tauto⟩
    · rintro ⟨hga, gp, hmem, hspec, hname, hedit⟩
      refine ⟨gp, hmem, ?_⟩
      rcases hga with hga | hga <;>
        simp [guestsAllowed, hga, hdef, hspec, hname, hedit]
  · intro hga
    simp [mayWrite, isOwner, hasPermissionUser, hasPermissionGroup,
      guestsAllowed, hga, List.any_eq_false]

/-- Witness for C3 at a concrete input: under the WRITE policy with the
EVERYONE default at WRITE, a guest may write a note carrying an EVERYONE
write grant. -/
theorem guest_mayWrite_iff_witness :
    mayWrite (PermissionsTests.cfg GuestAccess.write) none
      PermissionsTests.noteEverybodyWrite = true :=
  (guest_mayWrite_iff (PermissionsTests.cfg GuestAccess.write)
      PermissionsTests.noteEverybodyWrite rfl).1.mpr
    ⟨Or.inl rfl,
      { group := PermissionsTests.everybody, canEdit := true },
      by simp [PermissionsTests.noteEverybodyWrite],
      rfl, rfl, rfl⟩

/-- C5: `mayRead` and `mayWrite` do not depend on the order of a note's
group permissions. -/
theorem may_access_groupPermissions_perm (cfg : NoteConfig)
    (user : Option User) (note : Note) (gps : List NoteGroupPermission)
    (h : note.groupPermissions.Perm gps) :
    mayRead cfg user note = mayRead cfg user (withGroupPermissions note gps) ∧
      mayWrite cfg user note =
        mayWrite cfg user (withGroupPermissions note gps) := by
  constructor <;>
    simp only [mayRead, mayWrite, withGroupPermissions, isOwner,
      hasPermissionUser, hasPermissionGroup] <;>
    rw [any_of_perm _ h]

/-- Witness for C5 at a concrete input: swapping the two group grants of
a note changes neither `mayRead` nor `mayWrite`. -/
theorem may_access_groupPermissions_perm_witness :
    mayRead (PermissionsTests.cfg GuestAccess.create) (some PermissionsTests.user1)
        (PermissionsTests.groupNote
          [{ group := PermissionsTests.user1group, canEdit := false },
            { group := PermissionsTests.everybody, canEdit := true }]) =
      mayRead (PermissionsTests.cfg GuestAccess.create) (some PermissionsTests.user1)
        (withGroupPermissions
          (PermissionsTests.groupNote
            [{ group := PermissionsTests.user1group, canEdit := false },
              { group := PermissionsTests.everybody, canEdit := true }])
          [{ group := PermissionsTests.everybody, canEdit := true },
            { group := PermissionsTests.user1group, canEdit := false }]) :=
  (may_access_groupPermissions_perm (PermissionsTests.cfg GuestAccess.create)
      (some PermissionsTests.user1)
      (PermissionsTests.groupNote
        [{ group := PermissionsTests.user1group, canEdit := false },
          { group := PermissionsTests.everybody, canEdit := true }])
      [{ group := PermissionsTests.everybody, canEdit := true },
        { group := PermissionsTests.user1group, canEdit := false }]
      (List.Perm.swap _ _ _)).1

/-- The duplicate check only gets more positive when material is put in
front of the list. -/
theorem checkArrayForDuplicates_append_right (l₁ l₂ : List String)
    (h : checkArrayForDuplicates l₂ = true) :
    checkArrayForDuplicates (l₁ ++ l₂) = true := by
  induction l₁ with
  | nil => simpa using h
  | cons x xs ih =>
      rw [List.cons_append, checkArrayForDuplicates, ih]
      simp

/-- A list whose head reappears later fails the duplicate check. -/
theorem checkArrayForDuplicates_cons_of_mem (a : String) (l : List String)
    (h : a ∈ l) : checkArrayForDuplicates (a :: l) = true := by
  rw [checkArrayForDuplicates]
  simp [h]

/-- A list that contains the same name at two positions fails the
duplicate check. -/
theorem checkArrayForDuplicates_of_split (l₁ l₂ l₃ : List String)
    (a : String) :
    checkArrayForDuplicates (l₁ ++ (a :: (l₂ ++ (a :: l₃)))) = true := by
  apply checkArrayForDuplicates_append_right
  apply checkArrayForDuplicates_cons_of_mem
  simp

/-- C4: `updateNotePermissions` is rejected with the distinct
`PermissionsUpdateInconsistentError` whenever the supplied user grants
contain two entries for the same username or the supplied group grants
contain two entries for the same group name. -/
theorem updateNotePermissions_rejects_duplicates
    (findUser : String → Option User) (findGroup : String → Option Group)
    (note : Note) (dto : NotePermissionsUpdateDto)
    (h :
      (∃ l₁ p l₂ q l₃,
        dto.sharedToUsers = l₁ ++ (p :: (l₂ ++ (q :: l₃))) ∧
          p.username = q.username) ∨
      (∃ l₁ p l₂ q l₃,
        dto.sharedToGroups = l₁ ++ (p :: (l₂ ++ (q :: l₃))) ∧
          p.groupName = q.groupName)) :
    updateNotePermissions findUser findGroup note dto =
      Except.error PermissionsError.PermissionsUpdateInconsistentError := by
  have hdup :
      checkArrayForDuplicates (dto.sharedToUsers.map
        (fun d => d.username)) = true ∨
      checkArrayForDuplicates (dto.sharedToGroups.map
        (fun d => d.groupName)) = true := by
    rcases h with ⟨l₁, p, l₂, q, l₃, hsplit, hname⟩ |
        ⟨l₁, p, l₂, q, l₃, hsplit, hname⟩
    · left
      rw [hsplit]
      simpa [← hname] using
        checkArrayForDuplicates_of_split
          (l₁.map fun d => d.username) (l₂.map fun d => d.username)
          (l₃.map fun d => d.username) p.username
    · right
      rw [hsplit]
      simpa [← hname] using
        checkArrayForDuplicates_of_split
          (l₁.map fun d => d.groupName) (l₂.map fun d => d.groupName)
          (l₃.map fun d => d.groupName) p.groupName
  unfold updateNotePermissions
  rcases hdup with hd | hd <;> simp [hd]

/-- Witness for C4 at a concrete input: repeating the same user grant
twice is rejected with the inconsistency error. -/
theorem updateNotePermissions_rejects_duplicates_witness :
    updateNotePermissions (fun _ => none) (fun _ => none)
        PermissionsTests.noteNobodyRead
        { sharedToUsers :=
            [{ username := "hardcoded", canEdit := true },
              { username := "hardcoded", canEdit := true }],
          sharedToGroups := [] } =
      Except.error PermissionsError.PermissionsUpdateInconsistentError :=
  updateNotePermissions_rejects_duplicates (fun _ => none) (fun _ => none)
    PermissionsTests.noteNobodyRead
    { sharedToUsers :=
        [{ username := "hardcoded", canEdit := true },
          { username := "hardcoded", canEdit := true }],
      sharedToGroups := [] }
    (Or.inl ⟨[], { username := "hardcoded", canEdit := true }, [],
      { username := "hardcoded", canEdit := true }, [], rfl, rfl⟩)

/-- The group layer is monotone: whoever it admits to writing it also
admits to reading. -/
theorem hasPermissionGroup_write_le_read (cfg : NoteConfig)
    (user : Option User) (note : Note)
    (h : hasPermissionGroup cfg user note true = true) :
    hasPermissionGroup cfg user note false = true := by
  simp only [hasPermissionGroup, List.any_eq_true] at h ⊢
  obtain ⟨gp, hmem, hcond⟩ := h
  refine ⟨gp, hmem, ?_⟩
  simp only [Bool.not_true, Bool.or_false, Bool.and_eq_true] at hcond
  obtain ⟨hedit, hrest⟩ := hcond
  simp only [Bool.not_false, Bool.or_true, Bool.true_and]
  split at hrest <;> rename_i hsp
  · rw [if_pos hsp]
    rcases Bool.or_eq_true_iff.mp hrest with hli | hev
    · exact Bool.or_eq_true_iff.mpr (Or.inl hli)
    · refine Bool.or_eq_true_iff.mpr (Or.inr ?_)
      simp only [Bool.and_eq_true] at hev ⊢
      refine ⟨⟨hev.1.1, ?_⟩, by simp⟩
      have := hev.1.2
      cases hga : cfg.guestAccess <;>
        simp [guestsAllowed, hga] at this ⊢
  · rw [if_neg hsp]
    exact hrest

/-- C1: for an authenticated user the access decision is layered: the
owner may always read and write; a per-user grant with `canEdit` true
allows both; a per-user grant with `canEdit` false allows reading, and
absent any write-granting user or group grant the user still cannot
write; a non-owner covered by no user grant and no group grant may
neither read nor write. -/
theorem mayRead_mayWrite_layered (cfg : NoteConfig) (u : User)
    (note : Note) :
    (isOwner (some u) note = true →
      mayRead cfg (some u) note = true ∧
        mayWrite cfg (some u) note = true) ∧
    ((∃ p ∈ note.userPermissions, p.user.id = u.id ∧ p.canEdit = true) →
      mayRead cfg (some u) note = true ∧
        mayWrite cfg (some u) note = true) ∧
    ((∃ p ∈ note.userPermissions, p.user.id = u.id ∧ p.canEdit = false) →
      mayRead cfg (some u) note = true) ∧
    (isOwner (some u) note = false →
      (∀ p ∈ note.userPermissions, p.user.id = u.id → p.canEdit = false) →
      hasPermissionGroup cfg (some u) note true = false →
      mayWrite cfg (some u) note = false) ∧
    (isOwner (some u) note = false →
      (∀ p ∈ note.userPermissions, p.user.id ≠ u.id) →
      hasPermissionGroup cfg (some u) note false = false →
      mayRead cfg (some u) note = false ∧
        mayWrite cfg (some u) note = false) := by
  refine ⟨?_, ?_, ?_, ?_, ?_⟩
  · intro h
    constructor <;> simp [mayRead, mayWrite, h]
  · rintro ⟨p, hmem, hid, hedit⟩
    have h₂ : ∀ w, hasPermissionUser (some u) note w = true := by
      intro w
      simp only [hasPermissionUser, List.any_eq_true]
      exact ⟨p, hmem, by simp [hid, hedit]⟩
    constructor <;> simp [mayRead, mayWrite, h₂]
  · rintro ⟨p, hmem, hid, hedit⟩
    have h₂ : hasPermissionUser (some u) note false = true := by
      simp only [hasPermissionUser, List.any_eq_true]
      exact ⟨p, hmem, by simp [hid]⟩
    simp [mayRead, h₂]
  · intro hown hedits hgroup
    simp only [mayWrite, hown, hgroup, Bool.or_false, Bool.false_or]
    simp only [hasPermissionUser, List.any_eq_false]
    intro p hmem
    by_cases hid : p.user.id = u.id
    · simp [hid, hedits p hmem hid]
    · simp [hid]
  · intro hown hids hgroup
    have huser : ∀ w, hasPermissionUser (some u) note w = false := by
      intro w
      simp only [hasPermissionUser, List.any_eq_false]
      intro p hmem
      simp [hids p hmem]
    have hgw : hasPermissionGroup cfg (some u) note true = false := by
      cases hg : hasPermissionGroup cfg (some u) note true
      · rfl
      · exact absurd (hasPermissionGroup_write_le_read cfg (some u) note hg)
          (by simp [hgroup])
    constructor <;>
      simp [mayRead, mayWrite, hown, huser, hgroup, hgw]

/-- Witness for C1 at concrete inputs: the owner of an otherwise
unshared note may read and write it. -/
theorem mayRead_mayWrite_layered_witness :
    mayRead (PermissionsTests.cfg GuestAccess.deny)
        (some PermissionsTests.user1) PermissionsTests.noteNobodyRead = true ∧
      mayWrite (PermissionsTests.cfg GuestAccess.deny)
        (some PermissionsTests.user1) PermissionsTests.noteNobodyRead = true :=
  (mayRead_mayWrite_layered (PermissionsTests.cfg GuestAccess.deny)
    PermissionsTests.user1 PermissionsTests.noteNobodyRead).1 (by decide)

end Permissions

namespace Authorship

/-- Decorations entirely outside the filter window pass through the
filter stage untouched, whatever the state. -/
theorem foldl_filterStep_outside (eff : AuthorshipUpdate) :
    ∀ (l : List Deco) (st : FilterState),
      (∀ d ∈ l, d.toPos < eff.fromPos ∨ eff.toPos < d.fromPos) →
      l.foldl (filterStep eff) st = { st with kept := st.kept ++ l } := by
  intro l
  induction l with
  | nil => intro st _; simp
  | cons d ds ih =>
      intro st h
      have hd := h d (List.mem_cons_self d ds)
      have hstep : filterStep eff st d = { st with kept := st.kept ++ [d] } := by
        unfold filterStep
        rcases hd with h₁ | h₁ <;> rw [if_pos (by simp [h₁])]
      rw [List.foldl_cons, hstep,
        ih _ (fun e he => h e (List.mem_cons_of_mem _ he))]
      simp

/-- Once the effect has been handled, the filter stage keeps every
further decoration unchanged. -/
theorem foldl_filterStep_handled (eff : AuthorshipUpdate) :
    ∀ (l : List Deco) (st : FilterState), st.handled = true →
      l.foldl (filterStep eff) st = { st with kept := st.kept ++ l } := by
  intro l
  induction l with
  | nil => intro st _; simp
  | cons d ds ih =>
      intro st h
      have hstep : filterStep eff st d = { st with kept := st.kept ++ [d] } := by
        unfold filterStep
        by_cases hc :
            (decide (d.toPos < eff.fromPos) ||
              decide (eff.toPos < d.fromPos)) = true
        · rw [if_pos hc]
        · rw [if_neg hc, if_pos h]
      rw [List.foldl_cons, hstep, ih ⟨st.handled, st.kept ++ [d], st.added⟩ h]
      simp

/-- C6: when the first decoration inside the effect's window belongs to
the effect's user and is exactly adjacent to the effect range (it starts
at the effect's end or ends at the effect's start), the update replaces
that decoration by a single decoration of that user spanning from the
minimum of the two start offsets to the maximum of the two end
offsets. -/
theorem adjacent_same_user_merged (pre post : List Deco) (d : Deco)
    (eff : AuthorshipUpdate)
    (hpre : ∀ e ∈ pre, e.toPos < eff.fromPos ∨ eff.toPos < e.fromPos)
    (hd : d.fromPos ≤ d.toPos) (he : eff.fromPos ≤ eff.toPos)
    (huser : d.userId = eff.userId)
    (hadj : d.fromPos = eff.toPos ∨ d.toPos = eff.fromPos) :
    applyEffect (pre ++ d :: post) eff =
      (pre ++ post) ++
        [createMark (min d.fromPos eff.fromPos) (max d.toPos eff.toPos)
          d.userId] := by
  have hwin₁ : ¬ d.toPos < eff.fromPos := by rcases hadj with h₁ | h₁ <;> omega
  have hwin₂ : ¬ eff.toPos < d.fromPos := by rcases hadj with h₁ | h₁ <;> omega
  simp only [applyEffect, runFilter]
  rw [List.foldl_append, foldl_filterStep_outside eff pre _ hpre,
    List.foldl_cons]
  have hstep :
      filterStep eff { handled := false, kept := [] ++ pre, added := [] } d =
        { handled := true, kept := [] ++ pre,
          added := [] ++
            [createMark (min d.fromPos eff.fromPos) (max d.toPos eff.toPos)
              d.userId] } := by
    unfold filterStep
    rw [if_neg (by simp [hwin₁, hwin₂]), if_neg (by simp),
      if_pos (by simp [huser]),
      if_pos (by rcases hadj with h₁ | h₁ <;> simp [h₁])]
  rw [hstep, foldl_filterStep_handled eff post _ rfl]
  simp

/-- Witness for C6 at a concrete input: an effect by "alice" directly
after their decoration `[0,2)` extends it to a single `[0,3)`
decoration. -/
theorem adjacent_same_user_merged_witness :
    applyEffect
        [{ fromPos := 0, toPos := 2, userId := "alice" }]
        { fromPos := 2, toPos := 3, userId := "alice", localUpdate := true } =
      [createMark (min 0 2) (max 2 3) "alice"] :=
  adjacent_same_user_merged [] []
    { fromPos := 0, toPos := 2, userId := "alice" }
    { fromPos := 2, toPos := 3, userId := "alice", localUpdate := true }
    (by intro e he; cases he) (by decide) (by decide) rfl (Or.inr rfl)

/-- C7: when the first decoration inside the effect's window belongs to
a different user than the effect, it is removed and replaced by up to
three decorations: one for the original user from the decoration's start
to the effect's start when the decoration starts strictly before the
effect, one for the effect's user covering exactly the effect range,
and one for the original user from the effect's end to the decoration's
end when the decoration ends strictly after the effect. -/
theorem other_user_split (pre post : List Deco) (d : Deco)
    (eff : AuthorshipUpdate)
    (hpre : ∀ e ∈ pre, e.toPos < eff.fromPos ∨ eff.toPos < e.fromPos)
    (hwin₁ : eff.fromPos ≤ d.toPos) (hwin₂ : d.fromPos ≤ eff.toPos)
    (huser : d.userId ≠ eff.userId) :
    applyEffect (pre ++ d :: post) eff =
      (pre ++ post) ++
        ((if d.fromPos < eff.fromPos then
            [createMark d.fromPos eff.fromPos d.userId]
          else []) ++
          [createMark eff.fromPos eff.toPos eff.userId] ++
          (if eff.toPos < d.toPos then
            [createMark eff.toPos d.toPos d.userId]
          else [])) := by
  simp only [applyEffect, runFilter]
  rw [List.foldl_append, foldl_filterStep_outside eff pre _ hpre,
    List.foldl_cons]
  have hstep :
      filterStep eff { handled := false, kept := [] ++ pre, added := [] } d =
        { handled := true, kept := [] ++ pre,
          added := [] ++
            ((if d.fromPos < eff.fromPos then
                [createMark d.fromPos eff.fromPos d.userId]
              else []) ++
              [createMark eff.fromPos eff.toPos eff.userId] ++
              (if eff.toPos < d.toPos then
                [createMark eff.toPos d.toPos d.userId]
              else [])) } := by
    unfold filterStep
    rw [if_neg (by simp; omega), if_neg (by simp),
      if_neg (by simp [huser])]
  rw [hstep, foldl_filterStep_handled eff post _ rfl]
  have hne :
      ((if d.fromPos < eff.fromPos then
          [createMark d.fromPos eff.fromPos d.userId]
        else []) ++
        [createMark eff.fromPos eff.toPos eff.userId] ++
        (if eff.toPos < d.toPos then
          [createMark eff.toPos d.toPos d.userId]
        else [])).isEmpty = false := by
    split <;> split <;> rfl
  simp only [List.nil_append, hne]
  simp

/-- Witness for C7 at a concrete input: an effect by "bob" strictly
inside a decoration `[0,5)` of "alice" splits it into `[0,1)` for
alice, `[1,3)` for bob and `[3,5)` for alice. -/
theorem other_user_split_witness :
    applyEffect
        [{ fromPos := 0, toPos := 5, userId := "alice" }]
        { fromPos := 1, toPos := 3, userId := "bob", localUpdate := false } =
      [] ++
        ((if (0 : Nat) < 1 then [createMark 0 1 "alice"] else []) ++
          [createMark 1 3 "bob"] ++
          (if (3 : Nat) < 5 then [createMark 3 5 "alice"] else [])) :=
  other_user_split [] []
    { fromPos := 0, toPos := 5, userId := "alice" }
    { fromPos := 1, toPos := 3, userId := "bob", localUpdate := false }
    (by intro e he; cases he) (by decide) (by decide) (by decide)

/-- The filter stage either keeps the whole decoration list or drops
exactly one of its elements, keeping the rest in order. -/
theorem foldl_filterStep_kept_shape (eff : AuthorshipUpdate) :
    ∀ (l : List Deco) (st : FilterState), st.handled = false →
      (l.foldl (filterStep eff) st).kept = st.kept ++ l ∨
      ∃ pre d post, l = pre ++ d :: post ∧
        (l.foldl (filterStep eff) st).kept = st.kept ++ (pre ++ post) := by
  intro l
  induction l with
  | nil => intro st _; left; simp
  | cons d ds ih =>
      intro st h
      rw [List.foldl_cons]
      by_cases hout :
          (decide (d.toPos < eff.fromPos) ||
            decide (eff.toPos < d.fromPos)) = true
      · have hstep :
            filterStep eff st d = { st with kept := st.kept ++ [d] } := by
          unfold filterStep
          rw [if_pos hout]
        rw [hstep]
        rcases ih ⟨st.handled, st.kept ++ [d], st.added⟩ h with
          h₁ | ⟨pre, e, post, hsplit, h₂⟩
        · left
          simpa [List.append_assoc] using h₁
        · right
          exact ⟨d :: pre, e, post, by simp [hsplit],
            by simpa [List.append_assoc] using h₂⟩
      · have hhandled : (filterStep eff st d).handled = true ∧
            (filterStep eff st d).kept = st.kept := by
          unfold filterStep
          rw [if_neg hout, if_neg (by simp [h])]
          by_cases hsame : (d.userId == eff.userId) = true
          · rw [if_pos hsame]
            by_cases hadj :
                (d.fromPos == eff.toPos || d.toPos == eff.fromPos) = true
            · rw [if_pos hadj]
              exact ⟨rfl, rfl⟩
            · rw [if_neg hadj]
              exact ⟨rfl, rfl⟩
          · rw [if_neg hsame]
            exact ⟨rfl, rfl⟩
        right
        refine ⟨[], d, ds, rfl, ?_⟩
        rw [foldl_filterStep_handled eff ds (filterStep eff st d) hhandled.1]
        simp [hhandled.2]

/-- C9: processing one authorship update effect removes or replaces at
most one pre-existing decoration — the filter keeps either the whole
set or the set minus exactly one decoration — and, in particular, an
effect by "alice" bridging the gap between two "alice" decorations
merges with only the first of them, leaving two separate decorations
for alice. -/
theorem at_most_one_decoration_handled :
    (∀ (decos : List Deco) (eff : AuthorshipUpdate),
      (runFilter eff decos).kept = decos ∨
      ∃ pre d post, decos = pre ++ d :: post ∧
        (runFilter eff decos).kept = pre ++ post) ∧
    applyEffect
        [{ fromPos := 0, toPos := 2, userId := "alice" },
          { fromPos := 3, toPos := 5, userId := "alice" }]
        { fromPos := 2, toPos := 3, userId := "alice",
          localUpdate := true } =
      [{ fromPos := 3, toPos := 5, userId := "alice" },
        { fromPos := 0, toPos := 3, userId := "alice" }] := by
  constructor
  · intro decos eff
    have hshape := foldl_filterStep_kept_shape eff decos
      { handled := false, kept := [], added := [] } rfl
    simpa [runFilter] using hshape
  · decide

/-- `applyEffect` reads every field of the effect except `localUpdate`. -/
theorem applyEffect_congr_localUpdate (decos : List Deco)
    (a b : AuthorshipUpdate) (h : SameButLocal a b) :
    applyEffect decos a = applyEffect decos b := by
  obtain ⟨h₁, h₂, h₃⟩ := h
  cases a
  cases b
  simp only at h₁ h₂ h₃
  subst h₁
  subst h₂
  subst h₃
  rfl

/-- C10: the decoration set produced by the state-field update does not
depend on the `localUpdate` flags of the transaction's authorship
update effects. -/
theorem updateDecorations_localUpdate_independent (decos : List Deco)
    (mapPos : Nat → Nat) (effs₁ effs₂ : List AuthorshipUpdate)
    (h : List.Forall₂ SameButLocal effs₁ effs₂) :
    updateDecorations decos mapPos effs₁ =
      updateDecorations decos mapPos effs₂ := by
  suffices hgen : ∀ init : List Deco,
      effs₁.foldl applyEffect init = effs₂.foldl applyEffect init by
    simpa [updateDecorations] using hgen _
  induction h with
  | nil => intro init; rfl
  | cons ha _ ih =>
      intro init
      simp only [List.foldl_cons]
      rw [applyEffect_congr_localUpdate _ _ _ ha]
      exact ih _

/-- Witness for C10 at a concrete input: flipping `localUpdate` on a
single effect leaves the produced decoration set unchanged. -/
theorem updateDecorations_localUpdate_independent_witness :
    updateDecorations [] (fun n => n)
        [{ fromPos := 0, toPos := 1, userId := "alice", localUpdate := true }] =
      updateDecorations [] (fun n => n)
        [{ fromPos := 0, toPos := 1, userId := "alice", localUpdate := false }] :=
  updateDecorations_localUpdate_independent [] (fun n => n) _ _
    (List.Forall₂.cons ⟨rfl, rfl, rfl⟩ List.Forall₂.nil)

end Authorship
